import Mathlib

/-!
Verification of the fixed-dimension vector arithmetic class of
2019/quizzes/quiz_3_basic_vector_class/vector.hpp and its self-test driver.
The C++ `double` arithmetic is embedded as exact rational arithmetic, and the
square root used by the Euclidean norm as the real square root.
-/

namespace VQ

/-- Embeds the C++ class `Vector<N>`: a vector in R^N stored as an array of N
coordinates `double u[N]`, modelled as a function from `Fin N` to exact
rationals. -/
abbrev Vector (N : ℕ) : Type := Fin N → ℚ

namespace Vector

/-- Embeds `Vector<N>::operator+`: the loop computes `sum[i] = u[i] + v[i]` for
each `i`. -/
def add {N : ℕ} (u v : Vector N) : Vector N := fun i => u i + v i

/-- Embeds `Vector<N>::operator-`: the loop computes `diff[i] = u[i] - v[i]` for
each `i`. -/
def sub {N : ℕ} (u v : Vector N) : Vector N := fun i => u i - v i

/-- Embeds the member `Vector<N>::operator*(double a)` (right scalar
multiplication `u*a`): the loop computes `product[i] = a * u[i]`. -/
def smulRight {N : ℕ} (u : Vector N) (a : ℚ) : Vector N := fun i => a * u i

/-- Embeds the free `operator*(double a, const Vector<N>& u)` (left scalar
multiplication `a*u`): the loop computes `product[i] = a * u[i]`. -/
def smulLeft {N : ℕ} (a : ℚ) (u : Vector N) : Vector N := fun i => a * u i

/-- Embeds `Vector<N>::operator[]` (the mutable and the const overload have the
same body): it asserts `i >= 0 && i < N` and then returns `u[i]`.  The index is
a C++ `int`, modelled as `ℤ`; the assertion failure (process abort) is modelled
as `none`. -/
def bracket {N : ℕ} (u : Vector N) (i : ℤ) : Option ℚ :=
  if h : 0 ≤ i ∧ i < (N : ℤ) then some (u ⟨i.toNat, by omega⟩) else none

end Vector

/-- Embeds the free function `inner`: the loop accumulates
`sum += u[i] * v[i]` over `i = 0 .. N-1`. -/
def inner {N : ℕ} (u v : Vector N) : ℚ := ∑ i, u i * v i

/-- Embeds the free function `norm`: the loop accumulates `sum += u[i] * u[i]`
and the result is `sqrt(sum)`. -/
noncomputable def norm {N : ℕ} (u : Vector N) : ℝ :=
  Real.sqrt ((∑ i, u i * u i : ℚ) : ℝ)

/-- Embeds the free function `cross`, defined only for 3-vectors:
`product[0] = u[1]*v[2] - u[2]*v[1]`, `product[1] = u[2]*v[0] - u[0]*v[2]`,
`product[2] = u[0]*v[1] - u[1]*v[0]`. -/
def cross (u v : Vector 3) : Vector 3 :=
  ![u 1 * v 2 - u 2 * v 1, u 2 * v 0 - u 0 * v 2, u 0 * v 1 - u 1 * v 0]

/-- Embeds the free function `det` on three 3-vectors:
`u[0]*(v[1]*w[2] - v[2]*w[1]) + u[1]*(v[2]*w[0] - v[0]*w[2]) +
u[2]*(v[0]*w[1] - v[1]*w[0])`. -/
def det (u v w : Vector 3) : ℚ :=
  u 0 * (v 1 * w 2 - v 2 * w 1) +
  u 1 * (v 2 * w 0 - v 0 * w 2) +
  u 2 * (v 0 * w 1 - v 1 * w 0)

/-- Embeds the body of the initializer-list constructor
`Vector(initializer_list<double> coords)`: starting at array position `i`, each
element of the list is written to the next position, with no bound check
against `N`.  Memory is modelled as positions `ℕ → ℚ`; positions `0 .. N-1`
are the array `u`, larger positions lie past its end. -/
def writeCoords (mem : ℕ → ℚ) : List ℚ → ℕ → (ℕ → ℚ)
  | [], _ => mem
  | c :: rest, i => writeCoords (fun j => if j = i then c else mem j) rest (i + 1)

/-- The array positions written by the constructor loop when it starts at
position `i`: one position per list element, in order, regardless of `N`. -/
def writtenIndices : List ℚ → ℕ → List ℕ
  | [], _ => []
  | _ :: rest, i => i :: writtenIndices rest (i + 1)

/-- Embeds the initializer-list constructor as observed through the vector's
coordinates: `mem0` is the unspecified initial content of the array (and of the
memory past it), the list elements are written starting at position 0, and the
vector reads back positions `0 .. N-1`. -/
def fromInitList {N : ℕ} (mem0 : ℕ → ℚ) (cs : List ℚ) : Vector N :=
  fun j => writeCoords mem0 cs 0 j.val

/-! The self-test driver (`test()` and `main()` of the quiz program). -/

/-- The constant `u` of `test()`. -/
def uT : Vector 3 := ![1, 2, 3]

/-- The constant `v` of `test()`. -/
def vT : Vector 3 := ![3, 1, 2]

/-- The constant `w` of `test()`. -/
def wT : Vector 3 := ![5, 3, 7]

/-- The constant `a` of `test()`. -/
def aT : ℚ := 4

/-- The tolerance used by `check`. -/
def tolerance : ℚ := 1 / 100000

/-- Embeds the vector overload of `diff`: the sum over `i` of
`fabs(u[i] - v[i])`. -/
def diffV {N : ℕ} (u v : Vector N) : ℚ := ∑ i, |u i - v i|

/-- A value printed and compared by `check`: either a scalar (`double`) or a
3-vector. -/
inductive TVal where
  | scalar (x : ℝ)
  | vec (v : Vector 3)

/-- Embeds `check(val, ref)`: it prints the computed value and the reference
value and returns 1 when `diff(val, ref) < tolerance`, else 0.  The scalar case
uses the scalar `diff` (`fabs(x - y)`), the vector case the vector `diff`. -/
noncomputable def check : TVal → TVal → ℕ
  | TVal.scalar x, TVal.scalar y => if |x - y| < (tolerance : ℝ) then 1 else 0
  | TVal.vec u, TVal.vec v => if diffV u v < tolerance then 1 else 0
  | _, _ => 0

/-- The eight (computed value, reference value) pairs that `test()` prints and
passes to `check`, in program order. -/
noncomputable def testChecks : List (TVal × TVal) :=
  [ (TVal.vec (Vector.add uT vT), TVal.vec ![4, 3, 5]),
    (TVal.vec (Vector.sub uT vT), TVal.vec ![-2, 1, 1]),
    (TVal.vec (Vector.smulRight uT aT), TVal.vec ![4, 8, 12]),
    (TVal.scalar (norm uT), TVal.scalar 3.74166),
    (TVal.scalar ((inner uT vT : ℚ) : ℝ), TVal.scalar 11),
    (TVal.vec (cross uT vT), TVal.vec ![1, 7, -5]),
    (TVal.scalar ((det uT vT wT : ℚ) : ℝ), TVal.scalar (-9)),
    (TVal.vec (Vector.smulLeft aT uT), TVal.vec ![4, 8, 12]) ]

/-- The pass counter `nPassed` accumulated by `test()`: the sum of the eight
`check` results. -/
noncomputable def nPassed : ℕ := (testChecks.map fun p => check p.1 p.2).sum

/-- The final line `test()` prints: `PASSED <nPassed> OF 8 TESTS`. -/
noncomputable def finalLine : String :=
  "PASSED " ++ toString nPassed ++ " OF 8 TESTS"

/-- Embeds `main()`: it calls `test()` (whose pass count, the argument here, it
ignores, since `test` returns `void`) and then executes `return 0`. -/
def mainExit (_nPassedByTest : ℕ) : ℤ := 0

end VQ

namespace VQ

/-! Helper lemmas: concrete evaluations used by several theorems. -/

lemma add_uT_vT : Vector.add uT vT = ![4, 3, 5] := by
  funext i
  fin_cases i <;> norm_num [Vector.add, uT, vT]

lemma sub_uT_vT : Vector.sub uT vT = ![-2, 1, 1] := by
  funext i
  fin_cases i <;> norm_num [Vector.sub, uT, vT]

lemma smulRight_uT : Vector.smulRight uT aT = ![4, 8, 12] := by
  funext i
  fin_cases i <;> norm_num [Vector.smulRight, uT, aT]

lemma smulLeft_uT : Vector.smulLeft aT uT = ![4, 8, 12] := by
  funext i
  fin_cases i <;> norm_num [Vector.smulLeft, uT, aT]

lemma inner_uT_vT : inner uT vT = 11 := by
  norm_num [inner, uT, vT, Fin.sum_univ_three]

lemma cross_uT_vT : cross uT vT = ![1, 7, -5] := by
  funext i
  fin_cases i <;> norm_num [cross, uT, vT]

lemma det_uT_vT_wT : det uT vT wT = -9 := by
  norm_num [det, uT, vT, wT]

lemma sum_sq_uT : (∑ i, uT i * uT i : ℚ) = 14 := by
  norm_num [uT, Fin.sum_univ_three]

lemma norm_uT_eq : norm uT = Real.sqrt 14 := by
  rw [norm, sum_sq_uT]
  norm_num

lemma sqrt14_close : |Real.sqrt 14 - 3.74166| < 1e-5 := by
  have h1 : (3.74165 : ℝ) < Real.sqrt 14 := by
    rw [Real.lt_sqrt (by norm_num)]
    norm_num
  have h2 : Real.sqrt 14 < 3.74167 := by
    rw [Real.sqrt_lt' (by norm_num)]
    norm_num
  rw [abs_lt]
  constructor <;> linarith

end VQ

namespace VQ

lemma writeCoords_untouched (cs : List ℚ) :
    ∀ (mem : ℕ → ℚ) (i j : ℕ), j < i ∨ i + cs.length ≤ j →
      writeCoords mem cs i j = mem j := by
  induction cs with
  | nil => intro mem i j _; rfl
  | cons c rest ih =>
    intro mem i j h
    simp only [List.length_cons] at h
    show writeCoords (fun j' => if j' = i then c else mem j') rest (i + 1) j = mem j
    rw [ih _ (i + 1) j (by omega)]
    have hne : j ≠ i := by omega
    simp [hne]

lemma writeCoords_get (cs : List ℚ) :
    ∀ (mem : ℕ → ℚ) (i k : ℕ) (hk : k < cs.length),
      writeCoords mem cs i (i + k) = cs.get ⟨k, hk⟩ := by
  induction cs with
  | nil => intro mem i k hk; simp at hk
  | cons c rest ih =>
    intro mem i k hk
    show writeCoords (fun j' => if j' = i then c else mem j') rest (i + 1) (i + k) = _
    cases k with
    | zero =>
      rw [writeCoords_untouched rest _ (i + 1) (i + 0) (by omega)]
      simp
    | succ m =>
      have hik : i + (m + 1) = (i + 1) + m := by omega
      rw [hik, ih _ (i + 1) m (by simp only [List.length_cons] at hk; omega)]
      rfl

lemma mem_writtenIndices (cs : List ℚ) :
    ∀ i j : ℕ, j ∈ writtenIndices cs i ↔ i ≤ j ∧ j < i + cs.length := by
  induction cs with
  | nil => intro i j; simp [writtenIndices]
  | cons c rest ih =>
    intro i j
    simp only [writtenIndices, List.mem_cons, ih, List.length_cons]
    omega

end VQ

namespace VQ

lemma diffV_self {N : ℕ} (u : Vector N) : diffV u u = 0 := by
  simp [diffV]

lemma check_vec_eq (u v : Vector 3) (h : u = v) :
    check (TVal.vec u) (TVal.vec v) = 1 := by
  subst h
  show (if diffV u u < tolerance then 1 else 0) = 1
  rw [diffV_self, if_pos (by norm_num [tolerance])]

lemma check_scalar_eq (x y : ℝ) (h : |x - y| < (tolerance : ℝ)) :
    check (TVal.scalar x) (TVal.scalar y) = 1 := by
  show (if |x - y| < ((tolerance : ℚ) : ℝ) then 1 else 0) = 1
  rw [if_pos h]

lemma nPassed_eq : nPassed = 8 := by
  have h1 := check_vec_eq _ _ add_uT_vT
  have h2 := check_vec_eq _ _ sub_uT_vT
  have h3 := check_vec_eq _ _ smulRight_uT
  have h4 : check (TVal.scalar (norm uT)) (TVal.scalar 3.74166) = 1 := by
    apply check_scalar_eq
    rw [norm_uT_eq, show ((tolerance : ℚ) : ℝ) = 1e-5 by norm_num [tolerance]]
    exact sqrt14_close
  have h5 : check (TVal.scalar ((inner uT vT : ℚ) : ℝ)) (TVal.scalar 11) = 1 := by
    apply check_scalar_eq
    rw [inner_uT_vT]
    norm_num [tolerance]
  have h6 := check_vec_eq _ _ cross_uT_vT
  have h7 : check (TVal.scalar ((det uT vT wT : ℚ) : ℝ)) (TVal.scalar (-9)) = 1 := by
    apply check_scalar_eq
    rw [det_uT_vT_wT]
    norm_num [tolerance]
  have h8 := check_vec_eq _ _ smulLeft_uT
  simp [nPassed, testChecks, h1, h2, h3, h4, h5, h6, h7, h8]

lemma finalLine_eq : finalLine = "PASSED 8 OF 8 TESTS" := by
  unfold finalLine
  rw [nPassed_eq]
  rfl

/-! The claims. -/

/-- Claim C1: on the concrete inputs u=(1,2,3), v=(3,1,2), w=(5,3,7), a=4, the
vector operations return the reference values: u+v=(4,3,5), u-v=(-2,1,1),
u*a=(4,8,12), norm(u)=3.74166 within tolerance 1e-5, inner(u,v)=11,
cross(u,v)=(1,7,-5), det(u,v,w)=-9, and a*u=(4,8,12). -/
theorem claim1_reference_values :
    Vector.add uT vT = ![4, 3, 5] ∧
    Vector.sub uT vT = ![-2, 1, 1] ∧
    Vector.smulRight uT aT = ![4, 8, 12] ∧
    |norm uT - 3.74166| < 1e-5 ∧
    inner uT vT = 11 ∧
    cross uT vT = ![1, 7, -5] ∧
    det uT vT wT = -9 ∧
    Vector.smulLeft aT uT = ![4, 8, 12] :=
  ⟨add_uT_vT, sub_uT_vT, smulRight_uT,
   by rw [norm_uT_eq]; exact sqrt14_close,
   inner_uT_vT, cross_uT_vT, det_uT_vT_wT, smulLeft_uT⟩

/-- Claim C2: for every pair of vectors u, v of the same dimension N and every
index i in [0, N), the addition operator returns a vector whose i-th coordinate
equals u[i] + v[i]. -/
theorem claim2_add_coordinatewise (N : ℕ) (u v : Vector N) (i : Fin N) :
    Vector.add u v i = u i + v i := rfl

/-- Claim C3: for every pair of vectors u, v of the same dimension N,
(u - v) + v = u exactly, over the exact-arithmetic embedding. -/
theorem claim3_sub_add_cancel (N : ℕ) (u v : Vector N) :
    Vector.add (Vector.sub u v) v = u := by
  funext i
  simp [Vector.add, Vector.sub]

/-- Claim C4: for every scalar a and vector u, the free function a*u returns
the same vector as the member operator u*a, coordinate for coordinate. -/
theorem claim4_scalar_mul_comm (N : ℕ) (a : ℚ) (u : Vector N) :
    Vector.smulLeft a u = Vector.smulRight u a := rfl

/-- Claim C5: for every vector u, norm(u) equals sqrt(inner(u,u)), where inner
is the sum of pairwise coordinate products. -/
theorem claim5_norm_sqrt_inner (N : ℕ) (u : Vector N) :
    norm u = Real.sqrt ((inner u u : ℚ) : ℝ) := rfl

/-- Claim C6: for every triple of 3-vectors u, v, w, det(u,v,w) equals the
scalar triple product inner(cross(u,v), w). -/
theorem claim6_det_triple_product (u v w : Vector 3) :
    det u v w = inner (cross u v) w := by
  simp [det, inner, cross, Fin.sum_univ_three]
  ring

/-- Claim C7: for every pair of 3-vectors u, v, cross(u,v) is orthogonal to
both arguments: inner(cross(u,v), u) = 0 and inner(cross(u,v), v) = 0. -/
theorem claim7_cross_orthogonal (u v : Vector 3) :
    inner (cross u v) u = 0 ∧ inner (cross u v) v = 0 := by
  constructor <;> (simp [inner, cross, Fin.sum_univ_three]; ring)

/-- Claim C8: the bracket operator triggers the assertion failure (modelled as
`none`) exactly when i < 0 or i >= N, and under the precondition 0 <= i < N it
returns the i-th stored coordinate. -/
theorem claim8_bracket_assertion (N : ℕ) (u : Vector N) (i : ℤ) :
    (Vector.bracket u i = none ↔ i < 0 ∨ (N : ℤ) ≤ i) ∧
    ∀ (h0 : 0 ≤ i) (hN : i < (N : ℤ)),
      Vector.bracket u i = some (u ⟨i.toNat, by omega⟩) := by
  constructor
  · simp only [Vector.bracket]
    split <;> rename_i h <;> simp <;> omega
  · intro h0 hN
    simp only [Vector.bracket]
    rw [dif_pos ⟨h0, hN⟩]

/-- Witness for claim C8: on u=(1,2,3), index 1 is in range and yields the
coordinate 2, while index 3 trips the assertion. -/
theorem claim8_bracket_assertion_witness :
    Vector.bracket uT 1 = some 2 ∧ Vector.bracket uT 3 = none := by
  constructor
  · rw [(claim8_bracket_assertion 3 uT 1).2 (by norm_num) (by norm_num)]
    decide
  · exact (claim8_bracket_assertion 3 uT 3).1.mpr (by norm_num)

/-- Claim C9: the quiz program's main runs test(), whose final printed line is
"PASSED n OF 8 TESTS" for its pass count n (n = 8 over the exact embedding, 8
checks in all), and returns exit code 0 whatever the pass count is. -/
theorem claim9_quiz_output_exit :
    (∀ n : ℕ, mainExit n = 0) ∧ nPassed = 8 ∧
    finalLine = "PASSED 8 OF 8 TESTS" ∧ testChecks.length = 8 :=
  ⟨fun _ => rfl, nPassed_eq, finalLine_eq, rfl⟩

/-- Claim C10: the initializer-list constructor writes the k list elements to
coordinates 0..k-1 in order; when k <= N the remaining coordinates keep their
unspecified initial content; and the loop checks nothing against N, so when
k > N it writes position N, past the end of the array. -/
theorem claim10_init_list_constructor (N : ℕ) (mem0 : ℕ → ℚ) (cs : List ℚ) :
    (∀ (_hk : cs.length ≤ N) (i : Fin N),
      (∀ hi : i.val < cs.length, fromInitList mem0 cs i = cs.get ⟨i.val, hi⟩) ∧
      (cs.length ≤ i.val → fromInitList mem0 cs i = mem0 i.val)) ∧
    (N < cs.length → N ∈ writtenIndices cs 0) := by
  refine ⟨fun _hk i => ⟨fun hi => ?_, fun hi => ?_⟩, fun hN => ?_⟩
  · have h := writeCoords_get cs mem0 0 i.val hi
    simpa [fromInitList] using h
  · have h := writeCoords_untouched cs mem0 0 i.val (Or.inr (by omega))
    simpa [fromInitList] using h
  · exact (mem_writtenIndices cs 0 N).mpr ⟨Nat.zero_le _, by omega⟩

/-- Witness for claim C10: with N=3 and list (5,7), coordinate 0 reads 5 and
coordinate 2 keeps the initial content 0; with N=2 and a 3-element list, the
out-of-range position 2 is written. -/
theorem claim10_init_list_constructor_witness :
    fromInitList (fun _ => 0) [5, 7] (⟨0, by norm_num⟩ : Fin 3) = 5 ∧
    fromInitList (fun _ => 0) [5, 7] (⟨2, by norm_num⟩ : Fin 3) = 0 ∧
    2 ∈ writtenIndices [10, 20, 30] 0 := by
  refine ⟨?_, ?_, ?_⟩
  · rw [((claim10_init_list_constructor 3 (fun _ => 0) [5, 7]).1
      (by norm_num) ⟨0, by norm_num⟩).1 (by norm_num)]
    rfl
  · exact ((claim10_init_list_constructor 3 (fun _ => 0) [5, 7]).1
      (by norm_num) ⟨2, by norm_num⟩).2 (by norm_num)
  · exact (claim10_init_list_constructor 2 (fun _ => 0) [10, 20, 30]).2
      (by norm_num)

end VQ
